import Mathlib

/-!
Shallow embedding of the X-agent repository (budget manager, action loop,
rate limiter, deduplication storage, Thompson-sampling bandit, scheduler
windows) together with theorems settling the specification claims.

Modelling conventions:
* SQLite tables become Lean lists of rows (most recently inserted first);
  `INSERT OR REPLACE` / `ON CONFLICT DO UPDATE` on a primary key becomes
  "remove rows with that key, cons the new row".
* ISO-8601 timestamps become integers (seconds); `timedelta(days=d)`
  becomes `86400 * d`.  Python float arithmetic on rewards, thresholds and
  buffer percentages is modelled with exact rationals (`Rat`).
* `sha256(...).hexdigest()` is an opaque deterministic function; the code
  only ever compares digests for equality, so definitions take the hash
  function as an explicit parameter `h : String → String`.
* `random.shuffle` / `random.choice` are modelled by quantifying over an
  arbitrary permutation-producing function / an arbitrary sampled index.
* `time.sleep` is modelled by returning the number of seconds slept.
-/

/-! ## budget.py: BudgetManager -/

/-- Truncation toward zero, the semantics of Python `int()` on a number. -/
def pyTrunc (q : Rat) : Int :=
  if q < 0 then -((-q).floor) else q.floor

/-- The fields of `BudgetManager` relevant to cap checks
(`read_cap`, `write_cap`, `buffer_pct`). -/
structure BudgetManager where
  read_cap : Int
  write_cap : Int
  buffer_pct : Rat

/-- `self.soft_read_cap = int(self.read_cap * (1 - buffer_pct))`. -/
def soft_read_cap (b : BudgetManager) : Int :=
  pyTrunc ((b.read_cap : Rat) * (1 - b.buffer_pct))

/-- `self.soft_write_cap = int(self.write_cap * (1 - buffer_pct))`. -/
def soft_write_cap (b : BudgetManager) : Int :=
  pyTrunc ((b.write_cap : Rat) * (1 - b.buffer_pct))

/-- `BudgetManager.can_read`; `reads` is the current monthly read count
reported by `get_usage`. -/
def can_read (b : BudgetManager) (reads : Int) (posts_count : Int) : Bool × String :=
  let new_total := reads + posts_count
  if new_total > b.read_cap then
    (false, "Hard cap exceeded: " ++ toString new_total ++ " > " ++ toString b.read_cap)
  else if new_total > soft_read_cap b then
    (false, "Soft cap exceeded: " ++ toString new_total ++ " > " ++ toString (soft_read_cap b)
      ++ " (buffer: " ++ toString (b.buffer_pct * 100) ++ "%)")
  else
    (true, "OK: " ++ toString new_total ++ "/" ++ toString (soft_read_cap b) ++ " reads")

/-- `BudgetManager.can_write`; `writes` is the current monthly write count. -/
def can_write (b : BudgetManager) (writes : Int) (count : Int) : Bool × String :=
  let new_total := writes + count
  if new_total > b.write_cap then
    (false, "Hard cap exceeded: " ++ toString new_total ++ " > " ++ toString b.write_cap)
  else if new_total > soft_write_cap b then
    (false, "Soft cap exceeded: " ++ toString new_total ++ " > " ++ toString (soft_write_cap b)
      ++ " (buffer: " ++ toString (b.buffer_pct * 100) ++ "%)")
  else
    (true, "OK: " ++ toString new_total ++ "/" ++ toString (soft_write_cap b) ++ " writes")

/-- The free plan: `PLAN_CAPS["free"] = {"reads": 100, "writes": 500}` with
the default 5% buffer. -/
def freePlan : BudgetManager := ⟨100, 500, 1/20⟩

/-- Helper: the soft cap of the free plan evaluates to 95. -/
theorem soft_read_cap_freePlan : soft_read_cap freePlan = 95 := by
  have h : ((100 : Int) : Rat) * (1 - 1/20) = 95 := by norm_num
  simp only [soft_read_cap, freePlan, h, pyTrunc]
  norm_num
  decide

/-- **C1.** `can_read`/`can_write` return `False` whenever `current + n`
exceeds the soft cap (even while within the hard cap) and whenever it
exceeds the hard cap; concretely, with 95 monthly reads on the free plan
(hard cap 100, 5% buffer, soft cap 95), `can_read 1` returns `False` with a
message beginning `"Soft cap exceeded"`. -/
theorem budget_soft_and_hard_caps :
    (∀ (b : BudgetManager) (reads n : Int),
      reads + n > soft_read_cap b → (can_read b reads n).1 = false) ∧
    (∀ (b : BudgetManager) (reads n : Int),
      reads + n > b.read_cap → (can_read b reads n).1 = false) ∧
    (∀ (b : BudgetManager) (writes n : Int),
      writes + n > soft_write_cap b → (can_write b writes n).1 = false) ∧
    (∀ (b : BudgetManager) (writes n : Int),
      writes + n > b.write_cap → (can_write b writes n).1 = false) ∧
    ((can_read freePlan 95 1).1 = false ∧
      ∃ rest, (can_read freePlan 95 1).2 = "Soft cap exceeded" ++ rest) := by
  refine ⟨?_, ?_, ?_, ?_, ?_⟩
  · intro b reads n h
    by_cases hc : reads + n > b.read_cap
    · simp [can_read, hc]
    · simp [can_read, hc, h]
  · intro b reads n h
    simp [can_read, h]
  · intro b writes n h
    by_cases hc : writes + n > b.write_cap
    · simp [can_write, hc]
    · simp [can_write, hc, h]
  · intro b writes n h
    simp [can_write, h]
  · have h1 : ¬(freePlan.read_cap < 95 + 1) := by decide
    have h2 : soft_read_cap freePlan < 95 + 1 := by
      rw [soft_read_cap_freePlan]; decide
    constructor
    · simp only [can_read]
      rw [if_neg h1, if_pos h2]
    · refine ⟨": " ++ toString ((95 : Int) + 1) ++ " > " ++ toString (soft_read_cap freePlan)
        ++ " (buffer: " ++ toString (freePlan.buffer_pct * 100) ++ "%)", ?_⟩
      simp only [can_read]
      rw [if_neg h1, if_pos h2]
      simp only [← String.append_assoc]
      congr 5

/-- Witness for `budget_soft_and_hard_caps`: its first conjunct applied at a
concrete budget state (free plan, 95 reads, one more read). -/
theorem budget_soft_and_hard_caps_witness :
    (95 + 1 > soft_read_cap freePlan) ∧ (can_read freePlan 95 1).1 = false :=
  ⟨by rw [soft_read_cap_freePlan]; decide,
    budget_soft_and_hard_caps.1 freePlan 95 1 (by rw [soft_read_cap_freePlan]; decide)⟩

/-! ## actions.py: act_on_search -/

/-- The four interaction kinds handled by `act_on_search`. -/
inductive AKind where
  | reply
  | like
  | follow
  | repost
deriving DecidableEq, Repr

/-- A post returned by `client.search_recent`: its id and (optional)
author id.  `none` models a missing or empty (falsy) `author_id`. -/
structure Post where
  id : String
  authorId : Option String
deriving DecidableEq, Repr

/-- The rows of the `actions` table that `already_acted` consults:
`(post_id, kind)` pairs, most recent first. -/
abbrev ActionLog := List (String × AKind)

/-- `Storage.already_acted`: `SELECT 1 FROM actions WHERE post_id=? AND kind=?`. -/
def already_acted (log : ActionLog) (post_id : String) (kind : AKind) : Bool :=
  log.contains (post_id, kind)

/-- The mutable state of one `act_on_search` run: the `remaining` counters
and the `actions` table. -/
structure AState where
  rem : AKind → Int
  log : ActionLog

/-- `remaining[a] -= 1`. -/
def decRem (r : AKind → Int) (k : AKind) : AKind → Int :=
  fun a => if a = k then r a - 1 else r a

/-- The id an action of the given kind is checked and logged against:
`pid` for reply/like/repost, `author_id` for follow (`none` when
`author_id` is falsy, in which case the follow branch is skipped). -/
def actionKey (p : Post) : AKind → Option String
  | .follow => p.authorId
  | _ => some p.id

/-- One iteration of the inner `for a in actions` loop of `act_on_search`:
skip if the counter is exhausted, skip if `already_acted`, otherwise act
(logging to storage unless `dry_run`) and decrement the counter. -/
def processAction (dryRun : Bool) (p : Post) (st : AState) (a : AKind) : AState :=
  if st.rem a ≤ 0 then st
  else
    match actionKey p a with
    | none => st
    | some key =>
      if already_acted st.log key a then st
      else
        { rem := decRem st.rem a,
          log := if dryRun then st.log else (key, a) :: st.log }

/-- The `actions` list built for one candidate, before `random.shuffle`. -/
def buildActions (r : AKind → Int) : List AKind :=
  (if r .reply > 0 then [AKind.reply] else []) ++
  (if r .like > 0 then [AKind.like] else []) ++
  (if r .follow > 0 then [AKind.follow] else []) ++
  (if r .repost > 0 then [AKind.repost] else [])

/-- One iteration of the outer `for p in posts` loop: skip the candidate
when it is authored by the agent itself, otherwise run the shuffled action
list.  `shuffle` models `random.shuffle`. -/
def processPost (dryRun : Bool) (me : String) (shuffle : List AKind → List AKind)
    (p : Post) (st : AState) : AState :=
  match p.authorId with
  | some aid =>
    if aid = me then st
    else (shuffle (buildActions st.rem)).foldl (processAction dryRun p) st
  | none => (shuffle (buildActions st.rem)).foldl (processAction dryRun p) st

/-- `all(v <= 0 for v in remaining.values())` for the four counters. -/
def allExhausted (r : AKind → Int) : Bool :=
  r .reply ≤ 0 && r .like ≤ 0 && r .follow ≤ 0 && r .repost ≤ 0

/-- `act_on_search` over an (already shuffled) candidate list: break as
soon as every counter is exhausted, else process the candidate; the final
`remaining` state (and action log) is returned. -/
def act_on_search (dryRun : Bool) (me : String) (shuffle : List AKind → List AKind) :
    List Post → AState → AState
  | [], st => st
  | p :: rest, st =>
    if allExhausted st.rem then st
    else act_on_search dryRun me shuffle rest (processPost dryRun me shuffle p st)

/-- Membership in the log is preserved by `processAction` (the log only
ever grows). -/
theorem mem_log_processAction (dryRun : Bool) (p : Post) (st : AState) (a : AKind)
    (e : String × AKind) (he : e ∈ st.log) :
    e ∈ (processAction dryRun p st a).log := by
  unfold processAction
  split
  · exact he
  · cases hk : actionKey p a with
    | none => simpa [hk] using he
    | some key =>
      simp only [hk]
      split
      · exact he
      · simp only
        split
        · exact he
        · exact List.mem_cons_of_mem _ he

/-- `processAction` of kind `a` leaves the counter of any other kind `k`
unchanged. -/
theorem processAction_rem_of_ne (dryRun : Bool) (p : Post) (st : AState)
    (a k : AKind) (hne : a ≠ k) :
    (processAction dryRun p st a).rem k = st.rem k := by
  unfold processAction
  split
  · rfl
  · cases hk : actionKey p a with
    | none => simp [hk]
    | some key =>
      simp only [hk]
      split
      · rfl
      · simp [decRem, Ne.symm hne]

/-- `processAction` of kind `k` with the `(key, k)` record already in the
log leaves the state unchanged. -/
theorem processAction_of_already (dryRun : Bool) (p : Post) (st : AState)
    (k : AKind) (key : String) (hk : actionKey p k = some key)
    (hmem : (key, k) ∈ st.log) :
    processAction dryRun p st k = st := by
  unfold processAction
  split
  · rfl
  · rw [hk]
    simp only
    rw [if_pos (show already_acted st.log key k = true from List.elem_iff.mpr hmem)]

/-- Folding the inner action loop never changes the counter of a kind `k`
whose `(key, k)` record is already logged. -/
theorem foldl_processAction_rem_of_already (dryRun : Bool) (p : Post)
    (k : AKind) (key : String) (hk : actionKey p k = some key) :
    ∀ (acts : List AKind) (st : AState), (key, k) ∈ st.log →
      ((acts.foldl (processAction dryRun p) st).rem k = st.rem k ∧
        (key, k) ∈ (acts.foldl (processAction dryRun p) st).log)
  | [], st, hmem => ⟨rfl, hmem⟩
  | a :: rest, st, hmem => by
    by_cases ha : a = k
    · subst ha
      rw [List.foldl_cons, processAction_of_already dryRun p st a key hk hmem]
      exact foldl_processAction_rem_of_already dryRun p a key hk rest st hmem
    · rw [List.foldl_cons]
      have hrec := foldl_processAction_rem_of_already dryRun p k key hk rest
        (processAction dryRun p st a) (mem_log_processAction dryRun p st a _ hmem)
      exact ⟨hrec.1.trans (processAction_rem_of_ne dryRun p st a k ha), hrec.2⟩

/-- **C10.** When an action of kind `k` on a candidate is skipped because an
`ActionRecord` for that `(post_id, kind)` pair already exists, the
remaining quota counter for `k` is left unchanged by that candidate:
skipped duplicate actions never consume quota. -/
theorem skipped_duplicate_preserves_quota (dryRun : Bool) (me : String)
    (shuffle : List AKind → List AKind) (p : Post) (st : AState)
    (k : AKind) (key : String) (hk : actionKey p k = some key)
    (hmem : (key, k) ∈ st.log) :
    (processPost dryRun me shuffle p st).rem k = st.rem k := by
  unfold processPost
  cases p.authorId with
  | none => exact (foldl_processAction_rem_of_already dryRun p k key hk _ st hmem).1
  | some aid =>
    simp only
    split
    · rfl
    · exact (foldl_processAction_rem_of_already dryRun p k key hk _ st hmem).1

/-- Witness for `skipped_duplicate_preserves_quota`: a candidate whose
`like` was already recorded leaves the like counter at 1. -/
theorem skipped_duplicate_preserves_quota_witness :
    (processPost false "me" id ⟨"p2", some "u2"⟩
        ⟨fun _ => 1, [("p2", AKind.like)]⟩).rem AKind.like = 1 :=
  skipped_duplicate_preserves_quota false "me" id ⟨"p2", some "u2"⟩
    ⟨fun _ => 1, [("p2", AKind.like)]⟩ AKind.like "p2" rfl (by decide)

/-- Unfolding `act_on_search` over one candidate while quota remains. -/
theorem act_on_search_cons (dryRun : Bool) (me : String)
    (shuffle : List AKind → List AKind) (p : Post) (rest : List Post)
    (st : AState) (h : allExhausted st.rem = false) :
    act_on_search dryRun me shuffle (p :: rest) st =
      act_on_search dryRun me shuffle rest (processPost dryRun me shuffle p st) := by
  rw [act_on_search]
  simp [h]

/-- `act_on_search` breaks (returning the state unchanged) once every
counter is exhausted. -/
theorem act_on_search_cons_stop (dryRun : Bool) (me : String)
    (shuffle : List AKind → List AKind) (p : Post) (rest : List Post)
    (st : AState) (h : allExhausted st.rem = true) :
    act_on_search dryRun me shuffle (p :: rest) st = st := by
  rw [act_on_search]
  simp [h]

/-- The self-authored candidate of the C2 scenario. -/
def pSelf : Post := ⟨"p1", some "me"⟩

/-- The other-authored candidate of the C2 scenario. -/
def pOther : Post := ⟨"p2", some "u2"⟩

/-- Initial state of the C2 scenario: limits `{reply:1, like:1, follow:1,
repost:1}` and no prior recorded actions. -/
def st0 : AState := ⟨fun _ => 1, []⟩

/-- All 24 orderings `random.shuffle` can produce for the four-action list. -/
def perms4 : List (List AKind) :=
  [[.reply, .like, .follow, .repost], [.reply, .like, .repost, .follow],
   [.reply, .follow, .like, .repost], [.reply, .follow, .repost, .like],
   [.reply, .repost, .like, .follow], [.reply, .repost, .follow, .like],
   [.like, .reply, .follow, .repost], [.like, .reply, .repost, .follow],
   [.like, .follow, .reply, .repost], [.like, .follow, .repost, .reply],
   [.like, .repost, .reply, .follow], [.like, .repost, .follow, .reply],
   [.follow, .reply, .like, .repost], [.follow, .reply, .repost, .like],
   [.follow, .like, .reply, .repost], [.follow, .like, .repost, .reply],
   [.follow, .repost, .reply, .like], [.follow, .repost, .like, .reply],
   [.repost, .reply, .like, .follow], [.repost, .reply, .follow, .like],
   [.repost, .like, .reply, .follow], [.repost, .like, .follow, .reply],
   [.repost, .follow, .reply, .like], [.repost, .follow, .like, .reply]]

/-- Every permutation of the four-action list is listed in `perms4`. -/
theorem perm_mem_perms4 (xs : List AKind)
    (h : xs.Perm [.reply, .like, .follow, .repost]) : xs ∈ perms4 := by
  have hlen : xs.length = 4 := h.length_eq
  match xs, hlen with
  | [a, b, c, d], _ =>
    revert h
    cases a <;> cases b <;> cases c <;> cases d <;> decide

/-- The outcome asserted by C2 for the final state: all counters 0, the
log holds exactly four entries, none against the self-authored candidate,
and exactly one of each kind against the other candidate. -/
def c2Outcome (st : AState) : Prop :=
  st.rem .reply = 0 ∧ st.rem .like = 0 ∧ st.rem .follow = 0 ∧ st.rem .repost = 0 ∧
  st.log.length = 4 ∧
  (∀ e ∈ st.log, e.1 ≠ "p1" ∧ e.1 ≠ "me") ∧
  st.log.count ("p2", .reply) = 1 ∧ st.log.count ("p2", .like) = 1 ∧
  st.log.count ("u2", .follow) = 1 ∧ st.log.count ("p2", .repost) = 1

instance (st : AState) : Decidable (c2Outcome st) := by
  unfold c2Outcome
  infer_instance

/-- Whatever order the four actions run in, processing the other-authored
candidate from the fresh state produces the C2 outcome. -/
theorem c2_fold_outcome :
    ∀ acts ∈ perms4, c2Outcome (acts.foldl (processAction false pOther) st0) := by
  decide

/-- **C2.** `act_on_search` with limits `{reply:1, like:1, follow:1,
repost:1}` over two candidates — one self-authored, one by another user —
ends with all four counters 0, no action logged against the self-authored
post, and exactly one action of each kind logged against the other
candidate, for every shuffle order. -/
theorem act_on_search_two_candidates
    (shuffle : List AKind → List AKind) (posts : List Post)
    (hs : ∀ l, (shuffle l).Perm l)
    (hp : posts = [pSelf, pOther] ∨ posts = [pOther, pSelf]) :
    c2Outcome (act_on_search false "me" shuffle posts st0) := by
  have hmem := perm_mem_perms4 _ (hs [.reply, .like, .follow, .repost])
  have hfold := c2_fold_outcome _ hmem
  have hother : processPost false "me" shuffle pOther st0 =
      (shuffle [.reply, .like, .follow, .repost]).foldl (processAction false pOther) st0 := rfl
  rcases hp with rfl | rfl
  · have hskip : processPost false "me" shuffle pSelf st0 = st0 := rfl
    rw [act_on_search_cons false "me" shuffle pSelf [pOther] st0 rfl, hskip,
      act_on_search_cons false "me" shuffle pOther [] st0 rfl, hother]
    exact hfold
  · rw [act_on_search_cons false "me" shuffle pOther [pSelf] st0 rfl, hother]
    have hstop : allExhausted ((shuffle [.reply, .like, .follow, .repost]).foldl
        (processAction false pOther) st0).rem = true := by
      obtain ⟨h1, h2, h3, h4, -⟩ := hfold
      simp [allExhausted, h1, h2, h3, h4]
    rw [act_on_search_cons_stop false "me" shuffle pSelf [] _ hstop]
    exact hfold

/-- Witness for `act_on_search_two_candidates`: the identity shuffle and
the order `[pSelf, pOther]`. -/
theorem act_on_search_two_candidates_witness :
    c2Outcome (act_on_search false "me" id [pSelf, pOther] st0) :=
  act_on_search_two_candidates id [pSelf, pOther] (fun l => List.Perm.refl l) (Or.inl rfl)

/-! ## rate_limiter.py: RateLimiter -/

/-- Lowercasing, the semantics of Python `str.lower()` on the error text. -/
def lowerStr (s : String) : String := String.mk (s.data.map Char.toLower)

/-- Python `pat in s` on character lists. -/
def infixB (pat : List Char) : List Char → Bool
  | [] => pat.isEmpty
  | c :: t => pat.isPrefixOf (c :: t) || infixB pat t

/-- `"429" in error_str or "rate limit" in error_str` where
`error_str = str(e).lower()`. -/
def is_rate_limit_msg (e : String) : Bool :=
  infixB "429".data (lowerStr e).data || infixB "rate limit".data (lowerStr e).data

/-- The `for attempt in range(max_retries)` loop of
`RateLimiter.backoff_and_retry`.  `attempts i` is the outcome of the
`i`-th call of `func`; `fuel` counts the loop iterations still available
(`fuel = maxRetries - i` at every call).  Falling out of the loop raises
`RuntimeError("Backoff retry failed")`. -/
def backoff_go (attempts : Nat → Except String α) (maxRetries : Nat) :
    Nat → Nat → Except String α
  | _, 0 => .error "Backoff retry failed"
  | i, fuel + 1 =>
    match attempts i with
    | .ok v => .ok v
    | .error e =>
      if is_rate_limit_msg e then
        if i < maxRetries - 1 then backoff_go attempts maxRetries (i + 1) fuel
        else .error e
      else .error e

/-- `max_retries = max_retries or self.max_retries`: a `None` or `0`
(falsy) argument is replaced by the instance default
`self.max_retries = 3`. -/
def effective_max_retries (maxRetriesArg : Option Nat) : Nat :=
  match maxRetriesArg with
  | none => 3
  | some n => if n = 0 then 3 else n

/-- The effective retry count is never 0. -/
theorem one_le_effective_max_retries (maxRetriesArg : Option Nat) :
    1 ≤ effective_max_retries maxRetriesArg := by
  cases maxRetriesArg with
  | none => decide
  | some n =>
    by_cases h : n = 0
    · simp [effective_max_retries, h]
    · simp only [effective_max_retries, if_neg h]
      omega

/-- `RateLimiter.backoff_and_retry` (the sleeps between attempts are
irrelevant to the returned value and are not modelled): apply the falsy
defaulting to the `max_retries` argument, then run the retry loop. -/
def backoff_and_retry (attempts : Nat → Except String α)
    (maxRetriesArg : Option Nat) : Except String α :=
  backoff_go attempts (effective_max_retries maxRetriesArg) 0
    (effective_max_retries maxRetriesArg)

/-- The retry loop only ever consults attempts with index below
`maxRetries`. -/
theorem backoff_go_frame (att att2 : Nat → Except String α) (mr : Nat)
    (hagree : ∀ j, j < mr → att j = att2 j) :
    ∀ (fuel i : Nat), i + fuel = mr →
      backoff_go att mr i fuel = backoff_go att2 mr i fuel
  | 0, i, _ => rfl
  | fuel + 1, i, hsum => by
    have hi : i < mr := by omega
    rw [backoff_go, backoff_go, ← hagree i hi]
    cases att i with
    | ok v => rfl
    | error e =>
      simp only
      split
      · split
        · exact backoff_go_frame att att2 mr hagree fuel (i + 1) (by omega)
        · rfl
      · rfl

/-- If every attempt below `maxRetries` fails with a rate-limit error, the
loop returns (re-raises) the last one. -/
theorem backoff_go_all_rl (att : Nat → Except String α) (mr : Nat) :
    ∀ (fuel i : Nat), i + fuel = mr → 1 ≤ fuel →
      (∀ j, i ≤ j → j < mr → ∃ e, att j = .error e ∧ is_rate_limit_msg e = true) →
      backoff_go att mr i fuel = att (mr - 1)
  | 0, _, _, hf, _ => absurd hf (by omega)
  | 1, i, hsum, _, h => by
    have hilt : i < mr := by omega
    obtain ⟨e, he, hrl⟩ := h i le_rfl hilt
    have hi : mr - 1 = i := by omega
    have hnlt : ¬(i < mr - 1) := by omega
    rw [backoff_go, he]
    simp only [hrl, if_true]
    rw [if_neg hnlt, hi]
    exact he.symm
  | fuel + 2, i, hsum, _, h => by
    have hlt : i < mr - 1 := by omega
    obtain ⟨e, he, hrl⟩ := h i le_rfl (by omega)
    rw [backoff_go, he]
    simp only [hrl, if_true, hlt]
    exact backoff_go_all_rl att mr (fuel + 1) (i + 1) (by omega) (by omega)
      (fun j hj hjm => h j (by omega) hjm)

/-- The loop propagates the first non-rate-limit error it meets: if the
attempts strictly before `k` all raise rate-limit errors and attempt `k`
(still within the loop bound) raises a non-rate-limit error, the loop
returns that error. -/
theorem backoff_go_first_non_rl (att : Nat → Except String α) (mr k : Nat)
    (ek : String) (hk : k < mr) (hek : att k = .error ek)
    (hrl : is_rate_limit_msg ek = false)
    (hbefore : ∀ j, j < k → ∃ e, att j = .error e ∧ is_rate_limit_msg e = true) :
    ∀ (fuel i : Nat), i + fuel = mr → i ≤ k →
      backoff_go att mr i fuel = .error ek
  | 0, i, hsum, hik => absurd hk (by omega)
  | fuel + 1, i, hsum, hik => by
    by_cases hi : i = k
    · subst hi
      rw [backoff_go, hek]
      simp [hrl]
    · have hik2 : i < k := by omega
      obtain ⟨e, he, hrle⟩ := hbefore i hik2
      have hlt : i < mr - 1 := by omega
      rw [backoff_go, he]
      simp only [hrle, if_true]
      rw [if_pos hlt]
      exact backoff_go_first_non_rl att mr k ek hk hek hrl hbefore fuel (i + 1)
        (by omega) (by omega)

/-- **C3.** `backoff_and_retry` (i) retries only on rate-limit-flavoured
exceptions: a non-rate-limit error is propagated on its first occurrence —
whenever the attempts before `k` all raised rate-limit errors and attempt
`k` (within the loop bound) raises a non-rate-limit error, that error is
returned unchanged; (ii) only the first `max_retries` attempts are ever
consulted (at most `max_retries − 1` additional attempts after the first),
where `max_retries` is the argument after the code's falsy defaulting to
3; (iii) when every attempt raises a rate-limit-flavoured exception, the
last one is re-raised. -/
theorem backoff_retries_only_rate_limits :
    (∀ (α : Type) (attempts : Nat → Except String α) (maxRetriesArg : Option Nat)
      (k : Nat) (e : String),
      k < effective_max_retries maxRetriesArg →
      (∀ j, j < k → ∃ e2, attempts j = .error e2 ∧ is_rate_limit_msg e2 = true) →
      attempts k = .error e → is_rate_limit_msg e = false →
      backoff_and_retry attempts maxRetriesArg = .error e) ∧
    (∀ (α : Type) (attempts attempts2 : Nat → Except String α)
      (maxRetriesArg : Option Nat),
      (∀ j, j < effective_max_retries maxRetriesArg → attempts j = attempts2 j) →
      backoff_and_retry attempts maxRetriesArg =
        backoff_and_retry attempts2 maxRetriesArg) ∧
    (∀ (α : Type) (attempts : Nat → Except String α) (maxRetriesArg : Option Nat),
      (∀ j, j < effective_max_retries maxRetriesArg →
        ∃ e, attempts j = .error e ∧ is_rate_limit_msg e = true) →
      backoff_and_retry attempts maxRetriesArg =
        attempts (effective_max_retries maxRetriesArg - 1)) := by
  refine ⟨?_, ?_, ?_⟩
  · intro α attempts maxRetriesArg k e hk hbefore he hrl
    exact backoff_go_first_non_rl attempts (effective_max_retries maxRetriesArg)
      k e hk he hrl hbefore (effective_max_retries maxRetriesArg) 0 (by omega)
      (by omega)
  · intro α attempts attempts2 maxRetriesArg hagree
    exact backoff_go_frame attempts attempts2 (effective_max_retries maxRetriesArg)
      hagree (effective_max_retries maxRetriesArg) 0 (by omega)
  · intro α attempts maxRetriesArg h
    exact backoff_go_all_rl attempts (effective_max_retries maxRetriesArg)
      (effective_max_retries maxRetriesArg) 0 (by omega)
      (one_le_effective_max_retries maxRetriesArg) (fun j _ hjm => h j hjm)

/-- A run in which every attempt hits a rate limit. -/
def attemptsRL : Nat → Except String Nat :=
  fun i => .error ("429 Too Many Requests, attempt " ++ toString i)

/-- A run whose first attempt fails with an unrelated error. -/
def attemptsBoom : Nat → Except String Nat :=
  fun _ => .error "connection refused"

/-- A run that hits a rate limit once and then an unrelated error. -/
def attemptsMixed : Nat → Except String Nat :=
  fun i => if i = 0 then .error "HTTP 429: rate limit" else .error "connection refused"

/-- Witness for `backoff_retries_only_rate_limits`: conjunct (i) applied
at an immediate unrelated error (`k = 0`), at an unrelated error after
one rate-limited attempt (`k = 1`), and conjunct (iii) at an
all-rate-limit run, all with `max_retries = 3`. -/
theorem backoff_retries_only_rate_limits_witness :
    backoff_and_retry attemptsBoom (some 3) = .error "connection refused" ∧
    backoff_and_retry attemptsMixed (some 3) = .error "connection refused" ∧
    backoff_and_retry attemptsRL (some 3) = .error "429 Too Many Requests, attempt 2" := by
  refine ⟨?_, ?_, ?_⟩
  · exact backoff_retries_only_rate_limits.1 Nat attemptsBoom (some 3) 0
      "connection refused" (by decide) (fun j hj => absurd hj (by omega)) rfl
      (by decide)
  · exact backoff_retries_only_rate_limits.1 Nat attemptsMixed (some 3) 1
      "connection refused" (by decide)
      (fun j hj => ⟨"HTTP 429: rate limit", by
        have hj0 : j = 0 := by omega
        subst hj0
        rfl, by decide⟩)
      rfl (by decide)
  · exact backoff_retries_only_rate_limits.2.2 Nat attemptsRL (some 3)
      (fun j hj => ⟨"429 Too Many Requests, attempt " ++ toString j, rfl, by
        have hj3 : j < 3 := by simpa [effective_max_retries] using hj
        interval_cases j <;> decide⟩)

/-- The per-endpoint record kept in `RateLimiter.limits`. -/
structure LimitInfo where
  limit : Int
  remaining : Int
  reset : Int
deriving DecidableEq

/-- `RateLimiter.can_call`: `(True, None)` for untracked endpoints;
`(False, int(max(0, reset - now)))` when `remaining < min_remaining`. -/
def can_call (limits : List (String × LimitInfo)) (endpoint : String)
    (min_remaining : Int) (now : Int) : Bool × Option Int :=
  match limits.lookup endpoint with
  | none => (true, none)
  | some info =>
    if info.remaining < min_remaining then (false, some (max 0 (info.reset - now)))
    else (true, none)

/-- `RateLimiter.wait_if_needed`, returning the seconds slept (0 = no
sleep).  The guard is `if not can_call and wait_seconds:`, so a `None` or
`0` wait is falsy and skips the sleep. -/
def wait_if_needed (limits : List (String × LimitInfo)) (endpoint : String)
    (min_remaining : Int) (now : Int) : Int :=
  match can_call limits endpoint min_remaining now with
  | (can, ws) =>
    if can = false then
      match ws with
      | some w => if w ≠ 0 then w + 1 else 0
      | none => 0
    else 0

/-- A tracked endpoint that is below the safety threshold and whose reset
time has already arrived (`wait_seconds = 0`). -/
def c8Limits : List (String × LimitInfo) := [("search", ⟨100, 0, 50⟩)]

/-- **C8 counterexample.** With `remaining = 0 < 5 = min_remaining` and
`reset = now`, `can_call` is not allowed and `wait_seconds = 0`, yet
`wait_if_needed` sleeps 0 seconds, not `wait_seconds + 1 = 1`: the claim
fails in the `wait_seconds = 0` case. -/
theorem wait_if_needed_zero_wait_cex :
    (can_call c8Limits "search" 5 50).1 = false ∧
    (can_call c8Limits "search" 5 50).2 = some 0 ∧
    wait_if_needed c8Limits "search" 5 50 = 0 ∧
    ¬(wait_if_needed c8Limits "search" 5 50 = 0 + 1) := by
  decide

/-- **C8 (amended).** Whenever `can_call` is not allowed — a tracked window
exists with `remaining < min_remaining`, giving
`wait_seconds = max(0, reset − now)` — `wait_if_needed` blocks for
`wait_seconds + 1` seconds if `wait_seconds > 0`, and returns without
blocking when `wait_seconds = 0`. -/
theorem wait_if_needed_blocks (limits : List (String × LimitInfo))
    (endpoint : String) (min_remaining now : Int) (info : LimitInfo)
    (hlook : limits.lookup endpoint = some info)
    (hrem : info.remaining < min_remaining) :
    (can_call limits endpoint min_remaining now).1 = false ∧
    (can_call limits endpoint min_remaining now).2 = some (max 0 (info.reset - now)) ∧
    wait_if_needed limits endpoint min_remaining now =
      (if max 0 (info.reset - now) ≠ 0 then max 0 (info.reset - now) + 1 else 0) := by
  have hc : can_call limits endpoint min_remaining now =
      (false, some (max 0 (info.reset - now))) := by
    unfold can_call
    rw [hlook]
    simp [hrem]
  refine ⟨by rw [hc], by rw [hc], ?_⟩
  unfold wait_if_needed
  rw [hc]
  rfl

/-- Witness for `wait_if_needed_blocks`: an endpoint 10 seconds from reset
sleeps 11 seconds. -/
theorem wait_if_needed_blocks_witness :
    wait_if_needed [("search", ⟨100, 2, 60⟩)] "search" 5 50 =
      (if max 0 ((60 : Int) - 50) ≠ 0 then max 0 ((60 : Int) - 50) + 1 else 0) :=
  (wait_if_needed_blocks [("search", ⟨100, 2, 60⟩)] "search" 5 50 ⟨100, 2, 60⟩
    (by decide) (by decide)).2.2

/-! ## storage.py: text deduplication -/

/-- Accumulating splitter behind `pySplit`: Python `str.split()` splits on
runs of whitespace and drops empty pieces. -/
def wordsAux : List Char → List Char → List (List Char)
  | [], acc => if acc.isEmpty then [] else [acc.reverse]
  | c :: rest, acc =>
    if c.isWhitespace then
      if acc.isEmpty then wordsAux rest [] else acc.reverse :: wordsAux rest []
    else wordsAux rest (c :: acc)

/-- Python `s.split()` (no separator argument). -/
def pySplit (s : String) : List String :=
  (wordsAux s.data []).map String.mk

/-- `normalize_text`: `" ".join(text.lower().split())`. -/
def normalize_text (text : String) : String :=
  " ".intercalate (pySplit (lowerStr text))

/-- Python `set(norm.split())`, as a duplicate-free list of tokens. -/
def tokSet (norm : String) : List String :=
  (pySplit norm).dedup

/-- `len(A & B) / max(1, len(A | B))` on token sets, with exact rational
division in place of float division. -/
def jaccard (tokens rtokens : List String) : Rat :=
  ((List.inter tokens rtokens).length : Rat) /
    ((max 1 (List.union tokens rtokens).length : Nat) : Rat)

/-- A row of the `text_hashes` table. -/
structure HashRow where
  text_hash : String
  post_id : Option String
  dt : Int
  text : String
  text_norm : String
  created_at : Int
deriving DecidableEq, Repr

/-- `(datetime.utcnow() - timedelta(days=days)).isoformat()`, with time
measured in seconds. -/
def cutoff_time (now days : Int) : Int := now - 86400 * days

/-- `Storage.store_text_hash`: `INSERT OR REPLACE` keyed on `text_hash`,
with `created_at = dt or utcnow()`. -/
def store_text_hash (hashF : String → String) (text : String)
    (post_id : Option String) (dt : Option Int) (now : Int)
    (tbl : List HashRow) : List HashRow :=
  let text_hash := hashF text
  let text_norm := normalize_text text
  let created_at := dt.getD now
  ⟨text_hash, post_id, created_at, text, text_norm, created_at⟩ ::
    tbl.filter (fun r => !(r.text_hash == text_hash))

/-- The predicate of the exact-hash query:
`text_hash = ? AND created_at > cutoff`. -/
def exact_hit (hsh : String) (cutoff : Int) (r : HashRow) : Bool :=
  r.text_hash == hsh && decide (r.created_at > cutoff)

/-- Insertion step for `ORDER BY created_at DESC`. -/
def insertByCreatedDesc (r : HashRow) : List HashRow → List HashRow
  | [] => [r]
  | x :: xs =>
    if r.created_at ≥ x.created_at then r :: x :: xs
    else x :: insertByCreatedDesc r xs

/-- `ORDER BY created_at DESC` (insertion sort). -/
def sortByCreatedDesc : List HashRow → List HashRow
  | [] => []
  | x :: xs => insertByCreatedDesc x (sortByCreatedDesc xs)

/-- `SELECT text_norm FROM text_hashes WHERE created_at > ? ORDER BY
created_at DESC LIMIT 200`. -/
def recent_norms (tbl : List HashRow) (now days : Int) : List String :=
  ((sortByCreatedDesc
      (tbl.filter (fun r => decide (r.created_at > cutoff_time now days)))).take 200).map
    (fun r => r.text_norm)

/-- One iteration of the Jaccard loop: skip fingerprints with empty token
sets, otherwise compare the similarity against the threshold. -/
def near_hit (text : String) (threshold : Rat) (rn : String) : Bool :=
  let rtokens := tokSet rn
  !rtokens.isEmpty && decide (jaccard (tokSet (normalize_text text)) rtokens ≥ threshold)

/-- `Storage.is_text_duplicate`: exact-hash check within the trailing
window, then the Jaccard check against the up-to-200 most recent
fingerprints in the window. -/
def is_text_duplicate (hashF : String → String) (tbl : List HashRow)
    (text : String) (now days : Int) (threshold : Rat) : Bool :=
  if tbl.any (exact_hit (hashF text) (cutoff_time now days)) then true
  else (recent_norms tbl now days).any (near_hit text threshold)

/-- Restricting a list to rows satisfying `q` does not change `any p`
when `p` implies `q`. -/
theorem any_filter_of_imp (p q : α → Bool) (himp : ∀ a, p a = true → q a = true) :
    ∀ l : List α, (l.filter q).any p = l.any p
  | [] => rfl
  | a :: l => by
    by_cases hq : q a = true
    · rw [List.filter_cons_of_pos hq, List.any_cons, List.any_cons,
        any_filter_of_imp p q himp l]
    · rw [List.filter_cons_of_neg hq, List.any_cons, any_filter_of_imp p q himp l]
      have hp : p a = false := by
        cases hpa : p a with
        | false => rfl
        | true => exact absurd (himp a hpa) hq
      rw [hp, Bool.false_or]

/-- Filtering is idempotent. -/
theorem filter_idem (q : α → Bool) (l : List α) : (l.filter q).filter q = l.filter q := by
  rw [List.filter_filter]
  simp [Bool.and_self]

/-- **C4.** (i) After `store_text_hash` records text `T` at time `t`,
`is_text_duplicate T` returns `True` via the exact-hash match at any
moment within the trailing `days` window after `t`; (ii) both the exact
and the near-duplicate lookup consult only fingerprints recorded within
the trailing window: rows outside it can be dropped without changing the
result. -/
theorem dedup_window_exact_match :
    (∀ (hashF : String → String) (tbl : List HashRow) (text : String)
      (post_id : Option String) (t now2 now days : Int) (threshold : Rat),
      t > cutoff_time now days →
      is_text_duplicate hashF (store_text_hash hashF text post_id (some t) now2 tbl)
        text now days threshold = true) ∧
    (∀ (hashF : String → String) (tbl : List HashRow) (text : String)
      (now days : Int) (threshold : Rat),
      is_text_duplicate hashF tbl text now days threshold =
        is_text_duplicate hashF
          (tbl.filter (fun r => decide (r.created_at > cutoff_time now days)))
          text now days threshold) := by
  constructor
  · intro hashF tbl text post_id t now2 now days threshold ht
    have hhead : exact_hit (hashF text) (cutoff_time now days)
        ⟨hashF text, post_id, t, text, normalize_text text, t⟩ = true := by
      simp [exact_hit, ht]
    have hcond : (store_text_hash hashF text post_id (some t) now2 tbl).any
        (exact_hit (hashF text) (cutoff_time now days)) = true := by
      have hstore : store_text_hash hashF text post_id (some t) now2 tbl =
          ⟨hashF text, post_id, t, text, normalize_text text, t⟩ ::
            tbl.filter (fun r => !(r.text_hash == hashF text)) := rfl
      rw [hstore, List.any_cons, hhead, Bool.true_or]
    unfold is_text_duplicate
    rw [if_pos hcond]
  · intro hashF tbl text now days threshold
    unfold is_text_duplicate
    have hany : ((tbl.filter (fun r => decide (r.created_at > cutoff_time now days))).any
        (exact_hit (hashF text) (cutoff_time now days))) =
        tbl.any (exact_hit (hashF text) (cutoff_time now days)) := by
      refine any_filter_of_imp _ _ (fun r hr => ?_) tbl
      have := (Bool.and_eq_true _ _).mp hr
      exact this.2
    have hnorms : recent_norms
        (tbl.filter (fun r => decide (r.created_at > cutoff_time now days))) now days =
        recent_norms tbl now days := by
      unfold recent_norms
      rw [filter_idem]
    rw [hany, hnorms]

/-- Witness for `dedup_window_exact_match`: storing `"Hello world"` at
time 100 and looking it up at time 150 with a 7-day window. -/
theorem dedup_window_exact_match_witness :
    is_text_duplicate id
      (store_text_hash id "Hello world" none (some 100) 100 [])
      "Hello world" 150 7 (9/10) = true :=
  dedup_window_exact_match.1 id [] "Hello world" none 100 100 150 7 (9/10) (by decide)

/-- Token sets of the two similar texts used in the C5 instances. -/
theorem tokSet_norm_aab : tokSet (normalize_text "a  b") = ["a", "b"] := by decide

/-- The stored fingerprint's token set in the C5 instances. -/
theorem tokSet_norm_ab : tokSet (normalize_text "a b") = ["a", "b"] := by decide

/-- The Jaccard similarity of a two-token set with itself is 1. -/
theorem jaccard_ab_self : jaccard ["a", "b"] ["a", "b"] = 1 := by
  unfold jaccard
  have h3 : (List.inter ["a", "b"] ["a", "b"]).length = 2 := by decide
  have h4 : max 1 (List.union ["a", "b"] ["a", "b"]).length = 2 := by decide
  rw [h3, h4]
  norm_num

/-- **C5 (amended).** `is_duplicate(T')` returns `True` whenever some
fingerprint *among the compared set* (the up-to-200 most recent within
the window) has a nonempty token set whose Jaccard similarity with `T'`
is ≥ the threshold (equality included); and absent an exact-hash match in
the window, it returns `False` when every fingerprint in the compared set
has an empty token set or similarity below the threshold. -/
theorem near_duplicate_jaccard_threshold :
    (∀ (hashF : String → String) (tbl : List HashRow) (text : String)
      (now days : Int) (threshold : Rat) (rn : String),
      rn ∈ recent_norms tbl now days →
      tokSet rn ≠ [] →
      jaccard (tokSet (normalize_text text)) (tokSet rn) ≥ threshold →
      is_text_duplicate hashF tbl text now days threshold = true) ∧
    (∀ (hashF : String → String) (tbl : List HashRow) (text : String)
      (now days : Int) (threshold : Rat),
      tbl.any (exact_hit (hashF text) (cutoff_time now days)) = false →
      (∀ rn ∈ recent_norms tbl now days,
        tokSet rn = [] ∨
          jaccard (tokSet (normalize_text text)) (tokSet rn) < threshold) →
      is_text_duplicate hashF tbl text now days threshold = false) := by
  constructor
  · intro hashF tbl text now days threshold rn hmem hne hj
    unfold is_text_duplicate
    split
    · rfl
    · refine List.any_eq_true.mpr ⟨rn, hmem, ?_⟩
      unfold near_hit
      simp only
      have h1 : (tokSet rn).isEmpty = false := by
        cases htk : tokSet rn with
        | nil => exact absurd htk hne
        | cons a l => rfl
      rw [h1]
      simp [decide_eq_true hj]
  · intro hashF tbl text now days threshold hany hall
    have hcond : ¬(tbl.any (exact_hit (hashF text) (cutoff_time now days)) = true) := by
      simp [hany]
    unfold is_text_duplicate
    rw [if_neg hcond]
    refine List.any_eq_false.mpr ?_
    intro rn hmem
    rcases hall rn hmem with hempty | hlt
    · unfold near_hit
      simp [hempty]
    · unfold near_hit
      simp only
      have hd : decide (jaccard (tokSet (normalize_text text)) (tokSet rn) ≥ threshold)
          = false := decide_eq_false (not_le.mpr hlt)
      simp [hd]

/-- A one-row table holding the fingerprint of `"a b"` at time 100. -/
def c5WitnessTable : List HashRow :=
  [{ text_hash := "a b", post_id := none, dt := 100, text := "a b",
     text_norm := normalize_text "a b", created_at := 100 }]

/-- Witness for `near_duplicate_jaccard_threshold`: the candidate
`"a  b"` (double space, so a different hash) is flagged as a near
duplicate of the stored `"a b"`. -/
theorem near_duplicate_jaccard_threshold_witness :
    is_text_duplicate id c5WitnessTable "a  b" 150 7 (9/10) = true :=
  near_duplicate_jaccard_threshold.1 id c5WitnessTable "a  b" 150 7 (9/10)
    (normalize_text "a b") (by decide) (by decide)
    (by rw [tokSet_norm_aab, tokSet_norm_ab, jaccard_ab_self]; norm_num)

/-- A whitespace-only text of positive length `n + 1` (distinct raw texts,
all with empty normalized token sets). -/
def spacesText (n : Nat) : String := String.mk (List.replicate (n + 1) ' ')

/-- A table of 201 fingerprints, all within the window: 200 recent
whitespace-only fingerprints (`created_at` 200 down to 1) and, oldest of
all, the fingerprint of `"a b"` at time 0. -/
def c5Table : List HashRow :=
  ((List.range 200).map (fun i =>
    { text_hash := spacesText i, post_id := none, dt := (200 : Int) - i,
      text := spacesText i, text_norm := normalize_text (spacesText i),
      created_at := (200 : Int) - i })) ++
  [{ text_hash := "a b", post_id := none, dt := 0, text := "a b",
     text_norm := normalize_text "a b", created_at := 0 }]

set_option maxRecDepth 100000 in
set_option maxHeartbeats 2000000 in
/-- **C5 counterexample.** The fingerprint of `"a b"` is stored within
the trailing window and has nonempty token set with Jaccard similarity 1
(≥ 0.9) to the candidate `"a  b"`, yet `is_text_duplicate` returns
`False`: with 201 fingerprints in the window, the `LIMIT 200` query drops
the oldest fingerprint from the compared set. -/
theorem near_duplicate_jaccard_threshold_cex :
    (({ text_hash := "a b", post_id := none, dt := 0, text := "a b",
        text_norm := normalize_text "a b", created_at := 0 } : HashRow) ∈ c5Table ∧
      (0 : Int) > cutoff_time 300 7) ∧
    tokSet (normalize_text "a b") ≠ [] ∧
    jaccard (tokSet (normalize_text "a  b")) (tokSet (normalize_text "a b")) = 1 ∧
    (1 : Rat) ≥ 9/10 ∧
    is_text_duplicate id c5Table "a  b" 300 7 (9/10) = false := by
  refine ⟨⟨List.mem_append_right _ (List.mem_singleton.mpr rfl), by decide⟩,
    by decide, ?_, by norm_num, ?_⟩
  · rw [tokSet_norm_aab, tokSet_norm_ab, jaccard_ab_self]
  · decide

/-! ## scheduler.py: time windows -/

/-- The `WINDOWS` table, times as minutes since midnight
(e.g. `"morning" = (09:00, 12:00)`; `"late-night" = (23:00, 02:00)`
crosses midnight). -/
def WINDOWS : List (String × Nat × Nat) :=
  [("morning", 540, 720), ("afternoon", 780, 1020), ("evening", 1080, 1260),
   ("early-morning", 300, 480), ("night", 1260, 1380), ("late-night", 1380, 120)]

/-- `_in_range`: `start <= now <= end`, or `now >= start or now <= end`
for ranges crossing midnight. -/
def in_range (now s e : Nat) : Bool :=
  if s ≤ e then decide (s ≤ now) && decide (now ≤ e)
  else decide (now ≥ s) || decide (now ≤ e)

/-- Whether the named window (looked up in `WINDOWS`) contains `now`;
names missing from `WINDOWS` never match (`WINDOWS.get(name, (None,
None))`). -/
def window_matches (now : Nat) (name : String) : Bool :=
  match WINDOWS.lookup name with
  | some (s, e) => in_range now s e
  | none => false

/-- `current_slot`: the first configured window containing `now`,
otherwise `random.choice(windows)` (modelled by the sampled index
`pick`), and `None` only for an empty list. -/
def current_slot (windows : List String) (now : Nat) (pick : Nat) : Option String :=
  match windows.find? (window_matches now) with
  | some name => some name
  | none => windows.get? (pick % windows.length)

/-- **C6.** `current_slot` returns the first listed window containing
`now`, resolving midnight-crossing ranges (for `(23:00, 02:00)`: 23:30
and 01:00 match, 02:01 does not); when no window matches it returns the
uniformly sampled element `windows[pick % len]`, which is a member of the
list; and it returns `None` exactly when the list is empty. -/
theorem current_slot_resolution :
    (window_matches 1410 "late-night" = true ∧
      window_matches 60 "late-night" = true ∧
      window_matches 121 "late-night" = false) ∧
    (∀ (windows : List String) (now pick : Nat) (name : String),
      windows.find? (window_matches now) = some name →
      current_slot windows now pick = some name) ∧
    (∀ (windows : List String) (now pick : Nat),
      (∀ n ∈ windows, window_matches now n = false) →
      (current_slot windows now pick = windows.get? (pick % windows.length) ∧
        (windows ≠ [] → ∃ m ∈ windows, current_slot windows now pick = some m))) ∧
    (∀ (windows : List String) (now pick : Nat),
      current_slot windows now pick = none ↔ windows = []) := by
  refine ⟨by decide, ?_, ?_, ?_⟩
  · intro windows now pick name h
    unfold current_slot
    rw [h]
  · intro windows now pick hall
    have hfind : windows.find? (window_matches now) = none :=
      List.find?_eq_none.mpr (fun x hx => by simp [hall x hx])
    constructor
    · unfold current_slot
      rw [hfind]
    · intro hne
      have hlen : 0 < windows.length := List.length_pos.mpr hne
      have hlt : pick % windows.length < windows.length := Nat.mod_lt _ hlen
      refine ⟨windows.get ⟨pick % windows.length, hlt⟩, List.get_mem _ _ hlt, ?_⟩
      unfold current_slot
      rw [hfind, List.get?_eq_get hlt]
  · intro windows now pick
    constructor
    · intro h
      unfold current_slot at h
      cases hfind : windows.find? (window_matches now) with
      | some name => rw [hfind] at h; exact absurd h (by simp)
      | none =>
        rw [hfind] at h
        by_contra hne
        have hlen : 0 < windows.length := List.length_pos.mpr hne
        have hlt : pick % windows.length < windows.length := Nat.mod_lt _ hlen
        rw [List.get?_eq_get hlt] at h
        exact absurd h (by simp)
    · intro h
      subst h
      rfl

/-- Witness for `current_slot_resolution`: at 23:30, the midnight-crossing
`late-night` window is chosen as the first match. -/
theorem current_slot_resolution_witness :
    current_slot ["morning", "late-night"] 1410 0 = some "late-night" :=
  current_slot_resolution.2.1 ["morning", "late-night"] 1410 0 "late-night" (by decide)

/-! ## storage.py: Thompson-sampling bandit -/

/-- The `bandit` table: rows `(arm, alpha, beta)`. -/
abbrev BanditTable := List (String × Rat × Rat)

/-- `SELECT alpha, beta FROM bandit WHERE arm=?`. -/
def bandit_lookup (tbl : BanditTable) (arm : String) : Option (Rat × Rat) :=
  tbl.lookup arm

/-- The row read by `bandit_update`, defaulting to the Beta(1,1) prior
when no row exists. -/
def bandit_get (tbl : BanditTable) (arm : String) : Rat × Rat :=
  (bandit_lookup tbl arm).getD (1, 1)

/-- `reward = max(0.0, min(1.0, reward))`. -/
def clamp01 (r : Rat) : Rat := max 0 (min 1 r)

/-- `Storage.bandit_update`: clamp the reward, then
`alpha += reward; beta += 1 - reward`, upserted on the `arm` key. -/
def bandit_update (tbl : BanditTable) (arm : String) (reward : Rat) : BanditTable :=
  (arm, (bandit_get tbl arm).1 + clamp01 reward,
    (bandit_get tbl arm).2 + (1 - clamp01 reward)) ::
    tbl.filter (fun e => !(e.1 == arm))

/-- A sequence of `bandit_update` calls starting from the empty table. -/
def bandit_run (upds : List (String × Rat)) : BanditTable :=
  upds.foldl (fun t u => bandit_update t u.1 u.2) []

/-- `clamp01` evaluations used in the scenario instances. -/
theorem clamp01_five_halves : clamp01 ((5 : Rat)/2) = 1 := by
  unfold clamp01
  have h1 : min (1 : Rat) (5/2) = 1 := min_eq_left (by norm_num)
  rw [h1]
  exact max_eq_right (by norm_num)

/-- `clamp01` of a negative reward is 0. -/
theorem clamp01_neg_three : clamp01 (-3 : Rat) = 0 := by
  unfold clamp01
  have h1 : min (1 : Rat) (-3) = -3 := min_eq_right (by norm_num)
  rw [h1]
  exact max_eq_left (by norm_num)

/-- **C7.** `bandit_update(arm, reward)` first clamps the reward to
`[0,1]`, then sets `alpha += reward` and `beta += 1 − reward`, treating a
missing row as the Beta(1,1) prior; in particular
`bandit_update("topic|morning|False", 2.5)` on a fresh arm yields
`alpha = 2.0`, `beta = 1.0`. -/
theorem bandit_update_clamps_reward :
    (∀ (tbl : BanditTable) (arm : String) (reward : Rat),
      bandit_get (bandit_update tbl arm reward) arm =
        ((bandit_get tbl arm).1 + clamp01 reward,
          (bandit_get tbl arm).2 + (1 - clamp01 reward))) ∧
    bandit_get (bandit_update [] "topic|morning|False" (5/2)) "topic|morning|False"
      = (2, 1) := by
  have hgen : ∀ (tbl : BanditTable) (arm : String) (reward : Rat),
      bandit_get (bandit_update tbl arm reward) arm =
        ((bandit_get tbl arm).1 + clamp01 reward,
          (bandit_get tbl arm).2 + (1 - clamp01 reward)) := by
    intro tbl arm reward
    conv_lhs => rw [bandit_update]
    unfold bandit_get bandit_lookup
    simp [List.lookup]
  refine ⟨hgen, ?_⟩
  rw [hgen [] "topic|morning|False" (5/2), clamp01_five_halves]
  have hfresh : bandit_get [] "topic|morning|False" = (1, 1) := rfl
  rw [hfresh]
  norm_num

/-- `List.lookup` hits are members of the association list. -/
theorem lookup_mem_pairs {β : Type} :
    ∀ (tbl : List (String × β)) (k : String) (v : β),
      tbl.lookup k = some v → (k, v) ∈ tbl
  | [], _, _, h => by simp [List.lookup] at h
  | (k2, w) :: t, k, v, h => by
    rw [List.lookup] at h
    cases hbeq : (k == k2) with
    | true =>
      rw [hbeq] at h
      have hk : k = k2 := eq_of_beq hbeq
      have hv : w = v := by
        simpa using h
      subst hk
      subst hv
      exact List.mem_cons_self _ _
    | false =>
      rw [hbeq] at h
      exact List.mem_cons_of_mem _ (lookup_mem_pairs t k v h)

/-- One `bandit_update` preserves "alpha and beta at least 1 everywhere". -/
theorem bandit_update_preserves_ge_one (tbl : BanditTable)
    (harm : ∀ e ∈ tbl, 1 ≤ e.2.1 ∧ 1 ≤ e.2.2) (arm : String) (reward : Rat) :
    ∀ e ∈ bandit_update tbl arm reward, 1 ≤ e.2.1 ∧ 1 ≤ e.2.2 := by
  intro e he
  have hc0 : 0 ≤ clamp01 reward := le_max_left 0 _
  have hc1 : clamp01 reward ≤ 1 := max_le (by norm_num) (min_le_left _ _)
  have hget : 1 ≤ (bandit_get tbl arm).1 ∧ 1 ≤ (bandit_get tbl arm).2 := by
    unfold bandit_get bandit_lookup
    cases hl : tbl.lookup arm with
    | none => simp [hl]
    | some ab =>
      have hmem := lookup_mem_pairs tbl arm ab hl
      have := harm (arm, ab) hmem
      simpa [hl] using this
  rw [bandit_update] at he
  rcases List.mem_cons.mp he with rfl | he2
  · constructor
    · exact le_add_of_le_of_nonneg hget.1 hc0
    · exact le_add_of_le_of_nonneg hget.2 (by linarith)
  · exact harm e (List.mem_of_mem_filter he2)

/-- **C9.** For every arm and every sequence of `bandit_update` calls with
arbitrary (unclamped) rewards starting from the Beta(1,1) prior, the
stored alpha and beta each remain ≥ 1 at all times. -/
theorem bandit_alpha_beta_ge_one :
    ∀ (upds : List (String × Rat)) (arm : String) (a b : Rat),
      bandit_lookup (bandit_run upds) arm = some (a, b) → 1 ≤ a ∧ 1 ≤ b := by
  have hinv : ∀ (upds : List (String × Rat)) (tbl : BanditTable),
      (∀ e ∈ tbl, 1 ≤ e.2.1 ∧ 1 ≤ e.2.2) →
      ∀ e ∈ upds.foldl (fun t u => bandit_update t u.1 u.2) tbl,
        1 ≤ e.2.1 ∧ 1 ≤ e.2.2 := by
    intro upds
    induction upds with
    | nil => intro tbl h e he; exact h e he
    | cons u rest ih =>
      intro tbl h e he
      exact ih _ (bandit_update_preserves_ge_one tbl h u.1 u.2) e he
  intro upds arm a b hl
  have hmem := lookup_mem_pairs _ arm (a, b) hl
  exact hinv upds [] (by intro e he; cases he) _ hmem

/-- Computation used by the C9 witness: a reward of 2.5 then one of −3. -/
theorem bandit_run_example :
    bandit_lookup (bandit_run [("x", (5 : Rat)/2), ("x", -3)]) "x" = some (2, 2) := by
  have h1 : bandit_update [] "x" ((5 : Rat)/2) = [("x", 2, 1)] := by
    rw [bandit_update, clamp01_five_halves]
    have hfresh : bandit_get [] "x" = (1, 1) := rfl
    rw [hfresh]
    norm_num
  have h2 : bandit_update [("x", (2 : Rat), (1 : Rat))] "x" (-3) = [("x", 2, 2)] := by
    rw [bandit_update, clamp01_neg_three]
    have hget : bandit_get [("x", (2 : Rat), (1 : Rat))] "x" = (2, 1) := by
      unfold bandit_get bandit_lookup
      simp [List.lookup]
    rw [hget]
    norm_num
  have hrun : bandit_run [("x", (5 : Rat)/2), ("x", -3)] =
      bandit_update (bandit_update [] "x" ((5 : Rat)/2)) "x" (-3) := rfl
  rw [hrun, h1, h2]
  unfold bandit_lookup
  simp [List.lookup]

/-- Witness for `bandit_alpha_beta_ge_one`: after an out-of-range reward
2.5 and an out-of-range reward −3, the arm stores alpha = beta = 2 ≥ 1. -/
theorem bandit_alpha_beta_ge_one_witness :
    bandit_lookup (bandit_run [("x", (5 : Rat)/2), ("x", -3)]) "x" = some (2, 2) ∧
      (1 ≤ (2 : Rat) ∧ 1 ≤ (2 : Rat)) :=
  ⟨bandit_run_example,
    bandit_alpha_beta_ge_one [("x", (5 : Rat)/2), ("x", -3)] "x" 2 2 bandit_run_example⟩
